import Mathlib

/-!
Verification of content_splitter (src/content_splitter/split_content.py).

The Python module is shallowly embedded below. Python strings are lists of
Unicode code points (`Str`); UTF-8 byte lengths are computed with
`Char.utf8Size`, matching `len(s.encode("utf-8"))`. The scanning loop of
`split_html_content` is written with an explicit fuel parameter (one unit of
fuel per scanned character is more than enough, since every iteration of the
Python `while` loop advances `pos` by at least one); the `IndexError` that
`tag_content.split()[0]` can raise on an empty list is modelled by `Option`,
with `none` for the raised exception.
-/

/-- A Python str, modelled as its list of Unicode code points. -/
abbrev Str := List Char

/-- UTF-8 byte length of a string: Python len(s.encode("utf-8")). -/
def utf8Len (s : Str) : Nat := (s.map Char.utf8Size).sum

/-- The whitespace characters recognised by Python str.isspace(), and hence
by str.strip(), str.split() and the regex class \s on str patterns: the
ASCII whitespace 0x09-0x0D and 0x20 together with the separators 0x1C-0x1F,
the next-line character 0x85, the no-break space 0xA0, and the Unicode
space, line and paragraph separators (Zs, Zl, Zp). -/
def isSpace (c : Char) : Bool :=
  c = ' ' || c = '\t' || c = '\n' || c = '\r' || c = '\x0b' || c = '\x0c' ||
  c = '\x1c' || c = '\x1d' || c = '\x1e' || c = '\x1f' ||
  c = '\x85' || c = '\xa0' || c = '\u1680' ||
  ('\u2000' ≤ c && c ≤ '\u200a') ||
  c = '\u2028' || c = '\u2029' || c = '\u202f' || c = '\u205f' || c = '\u3000'

/-- Python s.strip(): remove leading and trailing whitespace. -/
def pyStrip (s : Str) : Str :=
  ((s.dropWhile isSpace).reverse.dropWhile isSpace).reverse

/-- Helper for `pySplit`: walk the string keeping the (reversed) current
word; whitespace ends a word, empty words are dropped. -/
def pySplitAux : Str → Str → List Str
  | [], acc => if acc.isEmpty then [] else [acc.reverse]
  | c :: cs, acc =>
    if isSpace c then
      if acc.isEmpty then pySplitAux cs [] else acc.reverse :: pySplitAux cs []
    else pySplitAux cs (c :: acc)

/-- Python s.split() with no argument: split on runs of whitespace,
discarding empty pieces. -/
def pySplit (s : Str) : List Str := pySplitAux s []

/-- Python " ".join(parts).strip(). -/
def joinStrip (parts : List Str) : Str := pyStrip (List.intercalate [' '] parts)

/-- State of the class HTMLFragmentManager (split_content.py, lines 8-16):
max_length, the open-tag stack, the saved (tag, name) pairs, the pieces of
the fragment under construction and its running byte length. -/
structure HTMLFragmentManager where
  max_length : Int
  stack : List Str
  saved_tags : List (Str × Str)
  current_fragment : List Str
  current_length : Nat
deriving DecidableEq, Repr

/-- HTMLFragmentManager.__init__(max_length). -/
def HTMLFragmentManager.init (max_length : Int) : HTMLFragmentManager :=
  { max_length := max_length
    stack := []
    saved_tags := []
    current_fragment := []
    current_length := 0 }

/-- The synthesized closing tag, Python f-string "</{tag}>". -/
def closeTagOf (tag : Str) : Str := '<' :: '/' :: (tag ++ ['>'])

/-- HTMLFragmentManager.get_tag_hierarchy: opening markup is the
concatenation of the saved raw tags, closing markup joins "</{tag}>" for
tag in reversed(self.stack). -/
def HTMLFragmentManager.get_tag_hierarchy (fm : HTMLFragmentManager) : Str × Str :=
  (List.flatten (fm.saved_tags.map Prod.fst),
   List.flatten (fm.stack.reverse.map closeTagOf))

/-- HTMLFragmentManager.would_exceed_limit(content): current length plus the
byte lengths of the content and of the closing markup, compared with
max_length. -/
def HTMLFragmentManager.would_exceed_limit
    (fm : HTMLFragmentManager) (content : Str) : Bool :=
  let closing_tags := fm.get_tag_hierarchy.2
  decide (fm.max_length <
    (fm.current_length : Int) + utf8Len content + utf8Len closing_tags)

/-- HTMLFragmentManager.create_fragment: on an empty buffer return "";
otherwise append the closing markup to the buffer and return the
concatenation (the Python method mutates current_fragment, so the updated
state is returned alongside the string). -/
def HTMLFragmentManager.create_fragment
    (fm : HTMLFragmentManager) : Str × HTMLFragmentManager :=
  if fm.current_fragment.isEmpty then ([], fm)
  else
    let closing_tags := fm.get_tag_hierarchy.2
    let cf := fm.current_fragment ++ [closing_tags]
    (List.flatten cf, { fm with current_fragment := cf })

/-- HTMLFragmentManager.start_new_fragment: reset the buffer to the opening
markup and set the byte length accordingly. -/
def HTMLFragmentManager.start_new_fragment
    (fm : HTMLFragmentManager) : HTMLFragmentManager :=
  let opening_tags := fm.get_tag_hierarchy.1
  { fm with current_fragment := [opening_tags]
            current_length := utf8Len opening_tags }

/-- HTMLFragmentManager.add_content(content): append and count bytes. -/
def HTMLFragmentManager.add_content
    (fm : HTMLFragmentManager) (content : Str) : HTMLFragmentManager :=
  { fm with current_fragment := fm.current_fragment ++ [content]
            current_length := fm.current_length + utf8Len content }

/-- HTMLFragmentManager.handle_closing_tag(tag_name): pop both lists when
the stack top matches (Python list.pop removes the last element, and the
saved_tags pop is guarded by its own emptiness test); otherwise no-op. -/
def HTMLFragmentManager.handle_closing_tag
    (fm : HTMLFragmentManager) (tag_name : Str) : HTMLFragmentManager :=
  if fm.stack ≠ [] ∧ fm.stack.getLast? = some tag_name then
    { fm with stack := fm.stack.dropLast
              saved_tags :=
                if fm.saved_tags ≠ [] then fm.saved_tags.dropLast
                else fm.saved_tags }
  else fm

/-- HTMLFragmentManager.handle_opening_tag(full_tag, tag_name): push onto
both lists unconditionally. -/
def HTMLFragmentManager.handle_opening_tag
    (fm : HTMLFragmentManager) (full_tag tag_name : Str) : HTMLFragmentManager :=
  { fm with stack := fm.stack ++ [tag_name]
            saved_tags := fm.saved_tags ++ [(full_tag, tag_name)] }

/-- The scanning loop of split_html_content (lines 76-116). The first
argument is fuel; the Python loop advances pos by at least one character per
iteration, so fuel exceeding the length of the remaining input never runs
out. The result is the list of yielded fragments, or none for the
IndexError raised by tag_content.split()[0] when the split is empty. -/
def splitHtmlLoop : Nat → HTMLFragmentManager → Str → Option (List Str)
  | 0, _, _ => none
  | _ + 1, fm, [] =>
    some (if fm.current_fragment.isEmpty then [] else [fm.create_fragment.1])
  | f + 1, fm, c :: rs =>
    if c = '<' then
      match (c :: rs).findIdx? (fun x => x = '>') with
      | Option.none =>
        some (if fm.current_fragment.isEmpty then [] else [fm.create_fragment.1])
      | Option.some i =>
        let full_tag := (c :: rs).take (i + 1)
        let tag_content := (full_tag.drop 1).dropLast
        let rest2 := (c :: rs).drop (i + 1)
        let flush := fm.would_exceed_limit full_tag && !fm.current_fragment.isEmpty
        let ys : List Str := if flush then [fm.create_fragment.1] else []
        let fm1 := if flush then fm.create_fragment.2.start_new_fragment else fm
        if tag_content.head? = some '/' then
          match pySplit tag_content with
          | [] => none
          | tok :: _ =>
            let tag_name := tok.drop 1
            Option.map (fun zs => ys ++ zs)
              (splitHtmlLoop f ((fm1.handle_closing_tag tag_name).add_content full_tag) rest2)
        else
          match pySplit tag_content with
          | [] => none
          | tok :: _ =>
            let fm2 := if tag_content.getLast? = some '/' then fm1
                       else fm1.handle_opening_tag full_tag tok
            Option.map (fun zs => ys ++ zs)
              (splitHtmlLoop f (fm2.add_content full_tag) rest2)
    else
      let text := (c :: rs).takeWhile (fun x => x ≠ '<')
      let rest2 := (c :: rs).dropWhile (fun x => x ≠ '<')
      if (pyStrip text).isEmpty then splitHtmlLoop f fm rest2
      else
        let flush := fm.would_exceed_limit text && !fm.current_fragment.isEmpty
        let ys : List Str := if flush then [fm.create_fragment.1] else []
        let fm1 := if flush then fm.create_fragment.2.start_new_fragment else fm
        Option.map (fun zs => ys ++ zs) (splitHtmlLoop f (fm1.add_content text) rest2)

/-- split_html_content(source, max_length) (lines 66-116): the empty-source
or non-positive max_length guard, then the scanning loop on a fresh
manager. -/
def split_html_content (source : Str) (max_length : Int) : Option (List Str) :=
  if source = [] ∨ max_length ≤ 0 then some []
  else splitHtmlLoop (source.length + 1) (HTMLFragmentManager.init max_length) source

/-- Syntactic condition on the source under which the scan of
split_html_content never reaches the IndexError branch: every tag it scans
(the span from a scanned '<' to the first '>' at or after it) has at least
one whitespace-free token between the angle brackets. The recursion follows
the scan of `splitHtmlLoop` exactly, which depends only on the source, not
on the manager state. -/
def tagsWellFormedAux : Nat → Str → Bool
  | 0, _ => false
  | _ + 1, [] => true
  | f + 1, c :: rs =>
    if c = '<' then
      match (c :: rs).findIdx? (fun x => x = '>') with
      | Option.none => true
      | Option.some i =>
        let tag_content := (((c :: rs).take (i + 1)).drop 1).dropLast
        !(pySplit tag_content).isEmpty && tagsWellFormedAux f ((c :: rs).drop (i + 1))
    else tagsWellFormedAux f ((c :: rs).dropWhile (fun x => x ≠ '<'))

/-- Source-level well-formedness for `split_html_content`, with the same
fuel the scanner itself gets. -/
def tagsWellFormed (source : Str) : Bool :=
  tagsWellFormedAux (source.length + 1) source

/-- Helper for the sentence boundary split of split_text_content, Python
re.split with pattern (?<=[.!?])[whitespace]+ : a whitespace run immediately
preceded by '.', '!' or '?' separates sentences and is consumed greedily;
the pieces (possibly empty at the end) are returned in order. The arguments
are the remaining input, the previously consumed character, whether we are
inside a separator run, and the reversed current piece. -/
def sentSplitAux : Str → Option Char → Bool → Str → List Str
  | [], _, _, acc => [acc.reverse]
  | c :: cs, prev, inRun, acc =>
    if inRun && isSpace c then sentSplitAux cs prev true acc
    else if inRun then sentSplitAux cs (some c) false (c :: acc)
    else if isSpace c && (prev = some '.' || prev = some '!' || prev = some '?') then
      acc.reverse :: sentSplitAux cs prev true []
    else sentSplitAux cs (some c) false (c :: acc)

/-- Python re.split(r"(?<=[.!?])\s+", source). -/
def sentSplit (source : Str) : List Str := sentSplitAux source none false []

/-- The sentence list of split_text_content (line 128):
[s.strip() for s in re.split(pattern, source) if s.strip()]. -/
def sentencesOf (source : Str) : List Str :=
  (sentSplit source).filterMap (fun s =>
    let t := pyStrip s
    if t.isEmpty then none else some t)

/-- The inner word loop of split_text_content (lines 136-152): greedy
packing of the words of an oversized sentence. Returns the fragments yielded
inside the loop together with the final word_fragment and word_length. -/
def wordLoop (max_length : Int) : List Str → List Str → Nat → List Str × List Str × Nat
  | [], word_fragment, word_length => ([], word_fragment, word_length)
  | word :: ws, word_fragment, word_length =>
    let word_size := utf8Len (word ++ [' '])
    if decide (max_length < (word_length : Int) + word_size) then
      let ys : List Str := if word_fragment.isEmpty then [] else [joinStrip word_fragment]
      let r := wordLoop max_length ws [word] word_size
      (ys ++ r.1, r.2.1, r.2.2)
    else wordLoop max_length ws (word_fragment ++ [word]) (word_length + word_size)

/-- The sentence loop of split_text_content (lines 133-167): an oversized
sentence is word-split and its sub-fragments yielded at once; otherwise the
sentence is packed into the running fragment, flushing it first when it
would overflow; the final running fragment is flushed at the end. -/
def sentLoop (max_length : Int) : List Str → List Str → Nat → List Str
  | [], current_fragment, _ =>
    if current_fragment.isEmpty then [] else [joinStrip current_fragment]
  | sentence :: ss, current_fragment, current_length =>
    if decide (max_length < (utf8Len sentence : Int)) then
      let r := wordLoop max_length (pySplit sentence) [] 0
      let tail : List Str := if r.2.1.isEmpty then [] else [joinStrip r.2.1]
      r.1 ++ tail ++ sentLoop max_length ss current_fragment current_length
    else
      let sentence_length := utf8Len sentence
      if decide (max_length < (current_length : Int) + sentence_length) then
        (if current_fragment.isEmpty then [] else [joinStrip current_fragment])
          ++ sentLoop max_length ss [sentence] sentence_length
      else sentLoop max_length ss (current_fragment ++ [sentence]) (current_length + sentence_length)

/-- split_text_content(source, max_length) (lines 119-167). -/
def split_text_content (source : Str) (max_length : Int) : List Str :=
  if source = [] ∨ max_length ≤ 0 then []
  else sentLoop max_length (sentencesOf source) [] 0

/-- A Python value passed to split_content: a string, or one of the
non-string shapes the spec and test suite name (None, a number, a list, a
mapping). -/
inductive PyValue where
  | str (s : Str)
  | pyNone
  | int (n : Int)
  | list (l : List PyValue)
  | dict
deriving Repr

/-- PyValue discriminator for isinstance(source, str). -/
def PyValue.isStr : PyValue → Bool
  | .str _ => true
  | _ => false

/-- The errors split_content can surface: the TypeError of line 173
(InvalidInputType in the spec taxonomy) and the IndexError escaping from
split_html_content (which the except clause of lines 182-183 does not
catch). -/
inductive PyErr where
  | invalidInputType
  | indexError
deriving DecidableEq, Repr

/-- Modelled from the spec: the content classifier
BeautifulSoup(source, "html.parser").find() comes from the external bs4
library and is not part of this repository's source. The spec describes it
as deciding whether the source "contains at least one HTML element (any
recognizable start/end tag)" and suggests a minimal permissive scanner
looking for a tag pattern: a '<' followed by a letter or '/', with a '>'
later on. -/
def hasHtmlElement : Str → Bool
  | [] => false
  | c :: cs =>
    if c = '<' then
      (match cs with
       | [] => false
       | d :: _ => (d.isAlpha || d = '/') && cs.contains '>')
      || hasHtmlElement cs
    else hasHtmlElement cs

/-- split_content(source, max_length) (lines 170-183): reject non-string
input with TypeError before looking at the source at all, return an empty
sequence for an empty source or non-positive max_length, then dispatch on
the classifier. The except clause of lines 182-183 only catches
AttributeError and TypeError from the classification, which the spec-modelled
total classifier never raises, so it does not appear; the IndexError of
split_html_content is not caught and propagates. -/
def split_content (source : PyValue) (max_length : Int) : Except PyErr (List Str) :=
  match source with
  | .str s =>
    if s = [] ∨ max_length ≤ 0 then .ok []
    else if hasHtmlElement s then
      match split_html_content s max_length with
      | Option.some l => .ok l
      | Option.none => .error .indexError
    else .ok (split_text_content s max_length)
  | _ => .error .invalidInputType

/-- An operation sequence on the tag tracker, for stating the reachable-state
invariant of the Saved Tag Records. -/
inductive TagOp where
  | opening (full_tag tag_name : Str)
  | closing (tag_name : Str)

/-- Apply one tracker operation. -/
def applyTagOp (fm : HTMLFragmentManager) : TagOp → HTMLFragmentManager
  | .opening full_tag tag_name => fm.handle_opening_tag full_tag tag_name
  | .closing tag_name => fm.handle_closing_tag tag_name

/-- A concrete tracker state with one open div, used to instantiate C7. -/
def fmC7 : HTMLFragmentManager :=
  { max_length := 100
    stack := ["div".toList]
    saved_tags := [("<div>".toList, "div".toList)]
    current_fragment := []
    current_length := 0 }

/-- One step preserves the parallelism of saved_tags and stack. -/
lemma applyTagOp_parallel (fm : HTMLFragmentManager) (op : TagOp)
    (h : fm.saved_tags.map Prod.snd = fm.stack) :
    (applyTagOp fm op).saved_tags.map Prod.snd = (applyTagOp fm op).stack := by
  cases op with
  | opening full_tag tag_name =>
    simp [applyTagOp, HTMLFragmentManager.handle_opening_tag, h]
  | closing tag_name =>
    simp only [applyTagOp, HTMLFragmentManager.handle_closing_tag]
    split
    · next hcond =>
      have hsv : fm.saved_tags ≠ [] := by
        intro he
        rw [he] at h
        exact hcond.1 h.symm
      rw [if_pos hsv]
      simpa using (List.map_dropLast Prod.snd fm.saved_tags).trans
        (congrArg List.dropLast h)
    · exact h

/-- The parallelism invariant holds along any operation sequence. -/
lemma foldl_applyTagOp_parallel (ops : List TagOp) :
    ∀ fm : HTMLFragmentManager, fm.saved_tags.map Prod.snd = fm.stack →
      (ops.foldl applyTagOp fm).saved_tags.map Prod.snd
        = (ops.foldl applyTagOp fm).stack := by
  induction ops with
  | nil => intro fm h; exact h
  | cons op ops ih =>
    intro fm h
    exact ih _ (applyTagOp_parallel fm op h)

lemma splitHtmlLoop_isSome_of_wf :
    ∀ (f : Nat) (rest : Str), rest.length < f → tagsWellFormedAux f rest = true →
      ∀ fm : HTMLFragmentManager, (splitHtmlLoop f fm rest).isSome = true := by
  intro f
  induction f with
  | zero =>
    intro rest hlen
    exact absurd hlen (Nat.not_lt_zero _)
  | succ f ih =>
    intro rest hlen hwf fm
    match rest with
    | [] => simp [splitHtmlLoop]
    | c :: rs =>
      have hrs : rs.length < f := by
        simpa using Nat.lt_of_succ_lt_succ hlen
      simp only [tagsWellFormedAux] at hwf
      simp only [splitHtmlLoop]
      by_cases hc : c = '<'
      · rw [if_pos hc] at hwf ⊢
        rcases hidx : (c :: rs).findIdx? (fun x => x = '>') with _ | i
        · dsimp only
          rfl
        · rw [hidx] at hwf
          dsimp only at hwf ⊢
          rw [Bool.and_eq_true] at hwf
          obtain ⟨hne, hrec⟩ := hwf
          have hlen2 : (List.drop (i + 1) (c :: rs)).length < f := by
            rw [List.length_drop]
            simp only [List.length_cons] at hlen ⊢
            omega
          have hsome := ih _ hlen2 hrec
          by_cases hhd :
              (List.drop 1 (List.take (i + 1) (c :: rs))).dropLast.head? = some '/'
          · rw [if_pos hhd]
            cases hsp : pySplit (List.drop 1 (List.take (i + 1) (c :: rs))).dropLast with
            | nil =>
              rw [hsp] at hne
              simp at hne
            | cons tok toks =>
              dsimp only
              rw [Option.isSome_map']
              exact hsome _
          · rw [if_neg hhd]
            cases hsp : pySplit (List.drop 1 (List.take (i + 1) (c :: rs))).dropLast with
            | nil =>
              rw [hsp] at hne
              simp at hne
            | cons tok toks =>
              dsimp only
              rw [Option.isSome_map']
              exact hsome _
      · rw [if_neg hc] at hwf ⊢
        have hlen2 : ((c :: rs).dropWhile (fun x => x ≠ '<')).length < f := by
          have heq : (c :: rs).dropWhile (fun x => x ≠ '<')
              = rs.dropWhile (fun x => x ≠ '<') := by
            rw [List.dropWhile_cons]
            simp [hc]
          rw [heq]
          exact Nat.lt_of_le_of_lt (List.dropWhile_sublist _).length_le hrs
        have hsome := ih _ hlen2 hwf
        by_cases hstrip :
            (pyStrip ((c :: rs).takeWhile (fun x => x ≠ '<'))).isEmpty = true
        · rw [if_pos hstrip]
          exact hsome fm
        · rw [if_neg hstrip]
          rw [Option.isSome_map']
          exact hsome _

/-- C1: the claim says every fragment of split_html_content stays within
maxLength unless a single tag or text run alone exceeds it. The code at the
failing input: with maxLength 10, splitting the source made of the tag
"<div>" (5 bytes), the text run "abc" (3 bytes) and the tag "</div>"
(6 bytes) yields three fragments of 11, 14 and 11 UTF-8 bytes, all over the
budget, although no single tag or text run exceeds 10 bytes. -/
theorem C1_html_fragments_exceed_budget :
    split_html_content "<div>abc</div>".toList 10 =
      some ["<div></div>".toList, "<div>abc</div>".toList, "<div></div>".toList]
    ∧ utf8Len "<div></div>".toList = 11
    ∧ utf8Len "<div>abc</div>".toList = 14
    ∧ utf8Len "<div>".toList = 5
    ∧ utf8Len "abc".toList = 3
    ∧ utf8Len "</div>".toList = 6 := by decide

/-- C2: the claim says every fragment of split_text_content stays within
maxLength unless a single word alone exceeds it. The code at the failing
input: the sentence accumulator counts sentences without the single join
space, so with maxLength 8 the source "aaa. bbb." (two sentences of 4 bytes,
every word 4 bytes) is emitted as the one fragment "aaa. bbb." of 9 UTF-8
bytes. -/
theorem C2_text_fragment_exceeds_budget :
    split_text_content "aaa. bbb.".toList 8 = ["aaa. bbb.".toList]
    ∧ utf8Len "aaa. bbb.".toList = 9
    ∧ pySplit "aaa. bbb.".toList = ["aaa.".toList, "bbb.".toList]
    ∧ utf8Len "aaa.".toList = 4
    ∧ utf8Len "bbb.".toList = 4 := by decide

/-- C3: the claim says fragments are yielded in strict source order, the
running fragment before the sub-fragments of a later oversized sentence.
The code at the failing input: with maxLength 6, the source
"aa. bbbbbb. cc." is split into sentences "aa.", "bbbbbb." (oversized) and
"cc.", and the word sub-fragment "bbbbbb." is yielded first while the
sentence "aa.", which precedes it in the source, only appears in the later
fragment "aa. cc.". -/
theorem C3_fragments_out_of_source_order :
    split_text_content "aa. bbbbbb. cc.".toList 6 =
      ["bbbbbb.".toList, "aa. cc.".toList]
    ∧ sentencesOf "aa. bbbbbb. cc.".toList =
      ["aa.".toList, "bbbbbb.".toList, "cc.".toList]
    ∧ utf8Len "bbbbbb.".toList = 7 := by decide

/-- C4: the claim says concatenating the words of all fragments in yield
order reproduces the words of the source. The code at the failing input:
with maxLength 6 the source "xx. yyyyyyy. zz." has word sequence
xx. yyyyyyy. zz., but the yielded fragments carry the words in the order
yyyyyyy. xx. zz. -/
theorem C4_word_sequence_not_reproduced :
    ((split_text_content "xx. yyyyyyy. zz.".toList 6).map pySplit).flatten
      = ["yyyyyyy.".toList, "xx.".toList, "zz.".toList]
    ∧ pySplit "xx. yyyyyyy. zz.".toList =
      ["xx.".toList, "yyyyyyy.".toList, "zz.".toList]
    ∧ ((split_text_content "xx. yyyyyyy. zz.".toList 6).map pySplit).flatten
      ≠ pySplit "xx. yyyyyyy. zz.".toList := by decide

/-- C5: get_tag_hierarchy returns the concatenation of the saved raw
opening-tag texts in stack order as the opening markup, and the
concatenation of the synthesized closing tags taken in reverse stack order
(innermost first) as the closing markup; in particular, after opening div
and then p on a fresh tracker it returns ("<div><p>", "</p></div>"). -/
theorem C5_get_tag_hierarchy :
    (∀ fm : HTMLFragmentManager,
      fm.get_tag_hierarchy =
        (List.flatten (fm.saved_tags.map Prod.fst),
         List.flatten ((fm.stack.map closeTagOf).reverse)))
    ∧ (((HTMLFragmentManager.init 100).handle_opening_tag
          "<div>".toList "div".toList).handle_opening_tag
          "<p>".toList "p".toList).get_tag_hierarchy
        = ("<div><p>".toList, "</p></div>".toList) := by
  constructor
  · intro fm
    simp [HTMLFragmentManager.get_tag_hierarchy, List.map_reverse]
  · decide

/-- C6: starting from a freshly constructed tracker, after any sequence of
handle_opening_tag and handle_closing_tag operations the Saved Tag Records
have the same length as the Tag Stack and their tag-name components, read in
order, are exactly the stack. -/
theorem C6_records_parallel_stack (max_length : Int) (ops : List TagOp) :
    ((ops.foldl applyTagOp (HTMLFragmentManager.init max_length)).saved_tags.length
      = (ops.foldl applyTagOp (HTMLFragmentManager.init max_length)).stack.length)
    ∧ ((ops.foldl applyTagOp (HTMLFragmentManager.init max_length)).saved_tags.map Prod.snd
      = (ops.foldl applyTagOp (HTMLFragmentManager.init max_length)).stack) := by
  have h := foldl_applyTagOp_parallel ops (HTMLFragmentManager.init max_length)
    (by simp [HTMLFragmentManager.init])
  refine ⟨?_, h⟩
  simpa using congrArg List.length h

/-- C7: a closing tag whose name does not match the stack top (in
particular on an empty stack) leaves the tracker entirely unchanged, and a
matching one pops exactly one entry from the stack and one from the saved
records (the records being nonempty, as they are in every reachable state by
C6). -/
theorem C7_handle_closing_tag (fm : HTMLFragmentManager) (tag_name : Str) :
    (fm.stack.getLast? ≠ some tag_name → fm.handle_closing_tag tag_name = fm)
    ∧ (fm.stack.getLast? = some tag_name → fm.saved_tags ≠ [] →
        (fm.handle_closing_tag tag_name).stack = fm.stack.dropLast
        ∧ (fm.handle_closing_tag tag_name).saved_tags = fm.saved_tags.dropLast
        ∧ (fm.handle_closing_tag tag_name).stack.length + 1 = fm.stack.length
        ∧ (fm.handle_closing_tag tag_name).saved_tags.length + 1
            = fm.saved_tags.length) := by
  constructor
  · intro h
    unfold HTMLFragmentManager.handle_closing_tag
    rw [if_neg]
    intro hc
    exact h hc.2
  · intro h hsv
    have hst : fm.stack ≠ [] := by
      intro he
      rw [he] at h
      simp at h
    have hstl : 0 < fm.stack.length := List.length_pos.mpr hst
    have hsvl : 0 < fm.saved_tags.length := List.length_pos.mpr hsv
    unfold HTMLFragmentManager.handle_closing_tag
    rw [if_pos ⟨hst, h⟩, if_pos hsv]
    refine ⟨rfl, rfl, ?_, ?_⟩
    · simp only [List.length_dropLast]
      omega
    · simp only [List.length_dropLast]
      omega

/-- C7 witness: the matching case of C7 at a concrete one-entry tracker. -/
theorem C7_handle_closing_tag_witness :
    fmC7.stack.getLast? = some "div".toList
    ∧ fmC7.saved_tags ≠ []
    ∧ ((fmC7.handle_closing_tag "div".toList).stack = fmC7.stack.dropLast
        ∧ (fmC7.handle_closing_tag "div".toList).saved_tags = fmC7.saved_tags.dropLast
        ∧ (fmC7.handle_closing_tag "div".toList).stack.length + 1 = fmC7.stack.length
        ∧ (fmC7.handle_closing_tag "div".toList).saved_tags.length + 1
            = fmC7.saved_tags.length) :=
  ⟨by decide, by decide,
    (C7_handle_closing_tag fmC7 "div".toList).2 (by decide) (by decide)⟩

/-- C8: an empty source, or a non-positive maxLength, makes each of the
three entry points produce an empty fragment sequence and no error. -/
theorem C8_empty_or_nonpositive (source : Str) (max_length : Int)
    (h : source = [] ∨ max_length ≤ 0) :
    split_content (.str source) max_length = .ok []
    ∧ split_html_content source max_length = some []
    ∧ split_text_content source max_length = [] := by
  refine ⟨?_, ?_, ?_⟩
  · simp only [split_content]
    rw [if_pos h]
  · simp only [split_html_content]
    rw [if_pos h]
  · simp only [split_text_content]
    rw [if_pos h]

/-- C8 witness: the empty source with a positive maxLength. -/
theorem C8_empty_or_nonpositive_witness :
    (([] : Str) = [] ∨ (100 : Int) ≤ 0)
    ∧ (split_content (.str []) 100 = .ok []
       ∧ split_html_content [] 100 = some []
       ∧ split_text_content [] 100 = []) :=
  ⟨Or.inl rfl, C8_empty_or_nonpositive [] 100 (Or.inl rfl)⟩

/-- C9: every non-string input to split_content (None, a number, a list, a
mapping) is rejected with the InvalidInputType error; in the embedding the
error is produced by the isinstance branch alone, before the source is
classified or scanned. -/
theorem C9_non_string_input (source : PyValue) (max_length : Int)
    (h : source.isStr = false) :
    split_content source max_length = .error .invalidInputType := by
  cases source with
  | str s => simp [PyValue.isStr] at h
  | pyNone => rfl
  | int n => rfl
  | list l => rfl
  | dict => rfl

/-- C9 witness: the None input. -/
theorem C9_non_string_input_witness :
    PyValue.pyNone.isStr = false
    ∧ split_content PyValue.pyNone 100 = .error .invalidInputType :=
  ⟨rfl, C9_non_string_input PyValue.pyNone 100 rfl⟩

/-- C10 counterexample: the claim says split_html_content never raises, for
a tag with an empty name like the one in the source made of '<' then '>'
in particular; on that source the code raises IndexError (modelled none),
because tag_content.split() is empty. -/
theorem C10_never_raises_counterexample :
    split_html_content "<>".toList 10 = none ∧ tagsWellFormed "<>".toList = false := by
  decide

/-- C10 (amended): split_html_content terminates normally with a fragment
list for every maxLength and every source in which each scanned tag has a
nonempty name token; in particular unbalanced tags and a truncated trailing
tag never raise. -/
theorem C10_html_tolerates_malformed (source : Str) (max_length : Int)
    (h : tagsWellFormed source = true) :
    (split_html_content source max_length).isSome = true := by
  unfold split_html_content
  by_cases hg : source = [] ∨ max_length ≤ 0
  · rw [if_pos hg]
    rfl
  · rw [if_neg hg]
    exact splitHtmlLoop_isSome_of_wf _ _ (Nat.lt_succ_self _) h _

/-- C10 witness: the truncated malformed source from the test suite. -/
theorem C10_html_tolerates_malformed_witness :
    tagsWellFormed "<div>test<".toList = true
    ∧ (split_html_content "<div>test<".toList 20).isSome = true :=
  ⟨by decide, C10_html_tolerates_malformed "<div>test<".toList 20 (by decide)⟩
